import Mathlib

/-!
Verification of the instanced particle renderer
(`src/webgl-renderer-optimized.js`, class `OptimizedWebGLRenderer`).

The JavaScript code is shallowly embedded:
* JS numbers are modelled by `JsNum := Option ℚ`, where `none` stands for
  `NaN` (produced only by `parseInt` / `parseFloat` on unparseable input);
  all arithmetic in the renderer is otherwise exact on rationals.
* JS strings are modelled as `List Char`.
* The WebGL API is modelled as a trace of `GLCmd` values emitted by
  `Renderer.drawParticles`, interpreted by a small state machine
  (`GLState`, `runCmds`) that tracks the bound buffer, buffer contents and
  attribute divisors, and records one `DrawEvent` per draw command.
* The circle template of `initBuffers` is modelled over ℝ with real
  `cos`/`sin` (`circleVertices`).
-/

/-- A JavaScript number: `none` models `NaN`. -/
abbrev JsNum := Option ℚ

/-- JS addition (NaN-propagating). -/
def jsAdd : JsNum → JsNum → JsNum
  | some a, some b => some (a + b)
  | _, _ => none

/-- JS subtraction (NaN-propagating). -/
def jsSub : JsNum → JsNum → JsNum
  | some a, some b => some (a - b)
  | _, _ => none

/-- JS multiplication (NaN-propagating). -/
def jsMul : JsNum → JsNum → JsNum
  | some a, some b => some (a * b)
  | _, _ => none

/-- JS division by a constant.  In the renderer every division is by one of
the nonzero literals 360, 100, 255, 2 or a positive segment count, so the
`Infinity` case of JS division never arises. -/
def jsDiv (a : JsNum) (c : ℚ) : JsNum := a.map (· / c)

/-- JS `<` comparison: any comparison with NaN is false. -/
def jsLt : JsNum → JsNum → Bool
  | some a, some b => decide (a < b)
  | _, _ => false

/-- JS `===` against a number literal: NaN is never equal. -/
def jsEq (a : JsNum) (c : ℚ) : Bool :=
  match a with
  | some v => decide (v = c)
  | none => false

/-- The decimal-digit class (`\d` of the regex, `0`–`9`). -/
def isDigitC (c : Char) : Bool := 48 ≤ c.toNat && c.toNat ≤ 57

/-- The `[\d.]` class of the hue capture group. -/
def isDigitDot (c : Char) : Bool := isDigitC c || c.toNat = 46

/-- The JS `\s` whitespace class. -/
def jsWs (c : Char) : Bool :=
  c.toNat = 9 || c.toNat = 10 || c.toNat = 11 || c.toNat = 12 ||
  c.toNat = 13 || c.toNat = 32 || c.toNat = 160 || c.toNat = 0x1680 ||
  (0x2000 ≤ c.toNat && c.toNat ≤ 0x200a) || c.toNat = 0x2028 ||
  c.toNat = 0x2029 || c.toNat = 0x202f || c.toNat = 0x205f ||
  c.toNat = 0x3000 || c.toNat = 0xfeff

/-- Value of a hexadecimal digit (`0`–`9`, `a`–`f`, `A`–`F`), `none` otherwise. -/
def hexDigitVal? (c : Char) : Option ℕ :=
  if 48 ≤ c.toNat ∧ c.toNat ≤ 57 then some (c.toNat - 48)
  else if 97 ≤ c.toNat ∧ c.toNat ≤ 102 then some (c.toNat - 87)
  else if 65 ≤ c.toNat ∧ c.toNat ≤ 70 then some (c.toNat - 55)
  else none

/-- Value of a string of decimal digits. -/
def digitsVal (ds : List Char) : ℕ :=
  ds.foldl (fun a c => 10 * a + (c.toNat - 48)) 0

/-- Value of a string of hexadecimal digits. -/
def hexVal (ds : List Char) : ℕ :=
  ds.foldl (fun a c => 16 * a + (hexDigitVal? c).getD 0) 0

/-- JS `parseInt(s, 10)` restricted to the inputs the renderer feeds it
(capture groups of `\d+`): the longest leading run of decimal digits,
`NaN` if there is none. -/
def jsParseIntDec (cs : List Char) : JsNum :=
  let ds := cs.takeWhile isDigitC
  if ds.isEmpty then none else some ((digitsVal ds : ℕ) : ℚ)

/-- JS `parseInt(s, 16)` restricted to sign/whitespace-free input (the
renderer feeds it 2-character slices of the color string): an optional
`0x`/`0X` marker, then the longest leading run of hex digits, `NaN` if
there is none. -/
def jsParseIntHex (cs : List Char) : JsNum :=
  let cs2 := if cs.take 2 = ['0', 'x'] ∨ cs.take 2 = ['0', 'X'] then cs.drop 2 else cs
  let ds := cs2.takeWhile fun c => (hexDigitVal? c).isSome
  if ds.isEmpty then none else some ((hexVal ds : ℕ) : ℚ)

/-- JS `parseFloat` restricted to the alphabet `[\d.]` of the hue capture
group (so no signs, exponents or whitespace can occur): the longest
leading `digits [. digits]` literal, `NaN` if there is none. -/
def jsParseFloat (cs : List Char) : JsNum :=
  let ip := cs.takeWhile isDigitC
  let r := cs.dropWhile isDigitC
  match r with
  | '.' :: r2 =>
    let fp := r2.takeWhile isDigitC
    if ip.isEmpty && fp.isEmpty then none
    else some ((digitsVal ip : ℚ) + (digitsVal fp : ℚ) / 10 ^ fp.length)
  | _ => if ip.isEmpty then none else some ((digitsVal ip : ℕ) : ℚ)

/-- Attempt to match the regex `hsl\(([\d.]+)\s*,\s*(\d+)%\s*,\s*(\d+)%\)`
at the head of the string, returning the three capture groups.  Greedy
matching without backtracking is equivalent here because the character
classes `[\d.]`, `\d`, `\s` and the literals `,`, `%`, `)` are pairwise
disjoint. -/
def hslMatchAt : List Char → Option (List Char × List Char × List Char)
  | 'h' :: 's' :: 'l' :: '(' :: rest =>
    let m1 := rest.takeWhile isDigitDot
    let r1 := rest.dropWhile isDigitDot
    if m1.isEmpty then none else
    match r1.dropWhile jsWs with
    | ',' :: r3 =>
      let r4 := r3.dropWhile jsWs
      let m2 := r4.takeWhile isDigitC
      let r5 := r4.dropWhile isDigitC
      if m2.isEmpty then none else
      match r5 with
      | '%' :: r6 =>
        match r6.dropWhile jsWs with
        | ',' :: r8 =>
          let r9 := r8.dropWhile jsWs
          let m3 := r9.takeWhile isDigitC
          let r10 := r9.dropWhile isDigitC
          if m3.isEmpty then none else
          match r10 with
          | '%' :: ')' :: _ => some (m1, m2, m3)
          | _ => none
        | _ => none
      | _ => none
    | _ => none
  | _ => none

/-- JS `String.prototype.match`: scan for the leftmost occurrence of the
HSL pattern. -/
def hslScan : List Char → Option (List Char × List Char × List Char)
  | [] => none
  | c :: cs =>
    match hslMatchAt (c :: cs) with
    | some m => some m
    | none => hslScan cs

/-- The `hue2rgb` helper of `parseColor` (lines 161–168 of the source). -/
def hue2rgb (p q t0 : JsNum) : JsNum :=
  let t1 := if jsLt t0 (some 0) then jsAdd t0 (some 1) else t0
  let t2 := if jsLt (some 1) t1 then jsSub t1 (some 1) else t1
  if jsLt t2 (some (1/6)) then jsAdd p (jsMul (jsMul (jsSub q p) (some 6)) t2)
  else if jsLt t2 (some (1/2)) then q
  else if jsLt t2 (some (2/3)) then jsAdd p (jsMul (jsMul (jsSub q p) (jsSub (some (2/3)) t2)) (some 6))
  else p

/-- The part of `parseColor` after the HSL attempt: the `#` branch
(lines 183–188: `parseInt(color.slice(1,3),16)/255` etc.) and the default
black (line 190). -/
def parseColorTail (color : List Char) : List JsNum :=
  if ['#'].isPrefixOf color then
    [jsDiv (jsParseIntHex ((color.drop 1).take 2)) 255,
     jsDiv (jsParseIntHex ((color.drop 3).take 2)) 255,
     jsDiv (jsParseIntHex ((color.drop 5).take 2)) 255,
     some 1]
  else [some 0, some 0, some 0, some 1]

/-- `OptimizedWebGLRenderer.parseColor` (lines 146–191 of the source),
returning the RGBA 4-element array. -/
def parseColor (color : List Char) : List JsNum :=
  if ['h', 's', 'l'].isPrefixOf color then
    match hslScan color with
    | some (m1, m2, m3) =>
      let h := jsDiv (jsParseFloat m1) 360
      let s := jsDiv (jsParseIntDec m2) 100
      let l := jsDiv (jsParseIntDec m3) 100
      if jsEq s 0 then [l, l, l, some 1]
      else
        let q := if jsLt l (some (1/2)) then jsMul l (jsAdd (some 1) s)
                 else jsSub (jsAdd l s) (jsMul l s)
        let p := jsSub (jsMul (some 2) l) q
        [hue2rgb p q (jsAdd h (some (1/3))), hue2rgb p q h,
         hue2rgb p q (jsSub h (some (1/3))), some 1]
    | none => parseColorTail color
  else parseColorTail color

/-- Pure-rational form of the `hue2rgb` helper; on NaN-free input the
embedded `hue2rgb` computes exactly this. -/
def hue2rgbQ (p q t0 : ℚ) : ℚ :=
  let t1 := if t0 < 0 then t0 + 1 else t0
  let t2 := if 1 < t1 then t1 - 1 else t1
  if t2 < 1/6 then p + (q - p) * 6 * t2
  else if t2 < 1/2 then q
  else if t2 < 2/3 then p + (q - p) * (2/3 - t2) * 6
  else p

/-- Pure-rational form of the HSL→RGB conversion of `parseColor`:
the achromatic shortcut when `s = 0`, otherwise the six-segment
`hue2rgb` helper applied at `h + 1/3`, `h`, `h - 1/3`. -/
def hslToRgbQ (h s l : ℚ) : ℚ × ℚ × ℚ :=
  if s = 0 then (l, l, l)
  else
    let q := if l < 1/2 then l * (1 + s) else l + s - l * s
    let p := 2 * l - q
    (hue2rgbQ p q (h + 1/3), hue2rgbQ p q h, hue2rgbQ p q (h - 1/3))

/-- A particle record as read by the renderer: `{x, y, size, color}` with
`color` a string. -/
structure Particle where
  x : ℚ
  y : ℚ
  size : ℚ
  color : List Char

/-- The `positions` array of `drawParticles` (lines 207, 213–214):
interleaved `x`,`y` per particle, in input order. -/
def instancePositions (ps : List Particle) : List JsNum :=
  ps.flatMap fun p => [some p.x, some p.y]

/-- The `sizes` array of `drawParticles` (lines 208, 215). -/
def instanceSizes (ps : List Particle) : List JsNum :=
  ps.map fun p => some p.size

/-- The `colors` array of `drawParticles` (lines 209, 217–221):
interleaved RGBA per particle; `parseColor` always returns a 4-element
array, so the flattening matches the four indexed writes. -/
def instanceColors (ps : List Particle) : List JsNum :=
  ps.flatMap fun p => parseColor p.color

/-- The WebGL buffer objects the renderer creates in `initBuffers`. -/
inductive BufferId
  | circleBuffer
  | instancePositionBuffer
  | instanceSizeBuffer
  | instanceColorBuffer
  deriving DecidableEq

/-- The four vertex attributes of the shader program. -/
inductive AttribId
  | vertexPosition
  | instancePosition
  | instanceSize
  | instanceColor
  deriving DecidableEq

/-- Draw primitive modes used by the renderer (only `TRIANGLE_FAN`). -/
inductive Mode
  | triangleFan
  deriving DecidableEq

/-- One WebGL API call issued by `drawParticles`, in call order. -/
inductive GLCmd
  | useProgram
  | uniform2f (w h : ℚ)
  | bindBuffer (b : BufferId)
  | bufferData (data : List JsNum)
  | enableVA (a : AttribId)
  | vaPointer (a : AttribId) (comps : ℕ)
  | vaDivisor (a : AttribId) (d : ℕ)
  | drawArraysInstanced (mode : Mode) (first count instances : ℕ)
  | drawArrays (mode : Mode) (first count : ℕ)
  | disableVA (a : AttribId)
  deriving DecidableEq

/-- Is the command a GPU draw command? -/
def GLCmd.isDraw : GLCmd → Bool
  | .drawArraysInstanced _ _ _ _ => true
  | .drawArrays _ _ _ => true
  | _ => false

/-- The draw commands of a trace, in order. -/
def drawCmds (l : List GLCmd) : List GLCmd := l.filter GLCmd.isDraw

/-- The renderer state fixed at construction: the capability flag
(`this.instancedArraysExt` detected in the constructor,
lines 17–20), the canvas dimensions and `this.circleVertexCount`. -/
structure Renderer where
  hasInstancing : Bool
  width : ℚ
  height : ℚ
  circleVertexCount : ℕ

/-- One iteration of the fallback loop (lines 306–321): re-upload the
single-element slices `positions[i*2..]`, `sizes[i]`, `colors[i*4..]` and
draw one fan.  The indices are always in range, so the `getD` defaults
are never hit. -/
def fallbackBlock (positions sizes colors : List JsNum) (cvc i : ℕ) : List GLCmd :=
  [.bindBuffer .instancePositionBuffer,
   .bufferData [positions.getD (i * 2) none, positions.getD (i * 2 + 1) none],
   .bindBuffer .instanceSizeBuffer,
   .bufferData [sizes.getD i none],
   .bindBuffer .instanceColorBuffer,
   .bufferData [colors.getD (i * 4) none, colors.getD (i * 4 + 1) none,
                colors.getD (i * 4 + 2) none, colors.getD (i * 4 + 3) none],
   .drawArrays .triangleFan 0 cvc]

/-- The attribute setup of `drawParticles` (lines 224–283): program,
resolution uniform, template shape binding, and the three full instance
array uploads, in source order. -/
def setupCmds (w h : ℚ) (positions sizes colors : List JsNum) : List GLCmd :=
  [.useProgram, .uniform2f w h,
   .bindBuffer .circleBuffer, .enableVA .vertexPosition, .vaPointer .vertexPosition 2,
   .bindBuffer .instancePositionBuffer, .bufferData positions,
   .enableVA .instancePosition, .vaPointer .instancePosition 2,
   .bindBuffer .instanceSizeBuffer, .bufferData sizes,
   .enableVA .instanceSize, .vaPointer .instanceSize 1,
   .bindBuffer .instanceColorBuffer, .bufferData colors,
   .enableVA .instanceColor, .vaPointer .instanceColor 4]

/-- The batched (instanced) branch of `drawParticles` (lines 285–302):
set the three instance step rates to 1, issue the single instanced
`TRIANGLE_FAN` draw, then reset the step rates to 0. -/
def batchedCmds (cvc n : ℕ) : List GLCmd :=
  [.vaDivisor .instancePosition 1, .vaDivisor .instanceSize 1, .vaDivisor .instanceColor 1,
   .drawArraysInstanced .triangleFan 0 cvc n,
   .vaDivisor .instancePosition 0, .vaDivisor .instanceSize 0, .vaDivisor .instanceColor 0]

/-- The cleanup of `drawParticles` (lines 325–328). -/
def cleanupCmds : List GLCmd :=
  [.disableVA .vertexPosition, .disableVA .instancePosition,
   .disableVA .instanceSize, .disableVA .instanceColor]

/-- `OptimizedWebGLRenderer.drawParticles` (lines 203–329) as the trace of
WebGL calls it issues.  `none` models a `null`/`undefined` argument
(line 204 returns early in that case too). -/
def Renderer.drawParticles (r : Renderer) (particles : Option (List Particle)) : List GLCmd :=
  match particles with
  | none => []
  | some ps =>
    if ps.length = 0 then [] else
    let positions := instancePositions ps
    let sizes := instanceSizes ps
    let colors := instanceColors ps
    setupCmds r.width r.height positions sizes colors
    ++ (if r.hasInstancing then
          batchedCmds r.circleVertexCount ps.length
        else
          (List.range ps.length).flatMap (fallbackBlock positions sizes colors r.circleVertexCount))
    ++ cleanupCmds

/-- The observable GL state a `drawParticles` trace interacts with: the
currently bound `ARRAY_BUFFER`, the contents of the four buffers, and the
attribute divisor (instance step rate) of each attribute. -/
structure GLState where
  bound : Option BufferId
  circleData : List JsNum
  posData : List JsNum
  sizeData : List JsNum
  colorData : List JsNum
  divVertexPosition : ℕ
  divInstancePosition : ℕ
  divInstanceSize : ℕ
  divInstanceColor : ℕ
  deriving DecidableEq

/-- A draw command as observed by the GPU: the primitive, ranges, and a
snapshot of the attribute streams at the moment of the draw. -/
structure DrawEvent where
  instanced : Bool
  mode : Mode
  first : ℕ
  count : ℕ
  instances : ℕ
  posData : List JsNum
  sizeData : List JsNum
  colorData : List JsNum
  deriving DecidableEq

/-- Apply one GL command to the state, recording draw events. -/
def GLState.applyCmd (s : GLState) : GLCmd → GLState × List DrawEvent
  | .bindBuffer b => ({ s with bound := some b }, [])
  | .bufferData d =>
    (match s.bound with
     | some .circleBuffer => { s with circleData := d }
     | some .instancePositionBuffer => { s with posData := d }
     | some .instanceSizeBuffer => { s with sizeData := d }
     | some .instanceColorBuffer => { s with colorData := d }
     | none => s, [])
  | .vaDivisor a d =>
    (match a with
     | .vertexPosition => { s with divVertexPosition := d }
     | .instancePosition => { s with divInstancePosition := d }
     | .instanceSize => { s with divInstanceSize := d }
     | .instanceColor => { s with divInstanceColor := d }, [])
  | .drawArrays m first count =>
    (s, [⟨false, m, first, count, 1, s.posData, s.sizeData, s.colorData⟩])
  | .drawArraysInstanced m first count instances =>
    (s, [⟨true, m, first, count, instances, s.posData, s.sizeData, s.colorData⟩])
  | _ => (s, [])

/-- Run a trace of GL commands from a state, collecting the draw events
in order. -/
def runCmds (s : GLState) : List GLCmd → GLState × List DrawEvent
  | [] => (s, [])
  | c :: cs =>
    let r1 := s.applyCmd c
    let r2 := runCmds r1.1 cs
    (r2.1, r1.2 ++ r2.2)

/-- The draw event produced by iteration `i` of the fallback loop:
a single fan drawn from the single-element slices of the instance
arrays at index `i`. -/
def fallbackEvent (positions sizes colors : List JsNum) (cvc i : ℕ) : DrawEvent :=
  ⟨false, .triangleFan, 0, cvc, 1,
   [positions.getD (i * 2) none, positions.getD (i * 2 + 1) none],
   [sizes.getD i none],
   [colors.getD (i * 4) none, colors.getD (i * 4 + 1) none,
    colors.getD (i * 4 + 2) none, colors.getD (i * 4 + 3) none]⟩

/-- The circle template of `initBuffers` (lines 124–137): the center
vertex followed by ring vertices at angle `(i / segments) * π * 2` for
`i = 0 .. segments`.  The source fixes `segments = 12`; the generator is
parameterized by the segment count as the spec describes it. -/
noncomputable def circleVertices (segments : ℕ) : List (ℝ × ℝ) :=
  ((0 : ℝ), (0 : ℝ)) ::
    (List.range (segments + 1)).map fun i : ℕ =>
      (Real.cos (((i : ℕ) : ℝ) / ((segments : ℕ) : ℝ) * Real.pi * 2),
       Real.sin (((i : ℕ) : ℝ) / ((segments : ℕ) : ℝ) * Real.pi * 2))

/-- Spec-side (from the claim's words, for stating C6): the supported hex
format `#RRGGBB`, a `#` followed by exactly six hex digits. -/
def claimHexFormat (cs : List Char) : Bool :=
  match cs with
  | '#' :: rest => rest.length = 6 && rest.all fun c => (hexDigitVal? c).isSome
  | _ => false

/-- Variant of `hslMatchAt` that requires the pattern to span the whole
string (helper for the spec-side format predicate `claimHslFormat`). -/
def hslMatchFull : List Char → Option (List Char × List Char × List Char)
  | 'h' :: 's' :: 'l' :: '(' :: rest =>
    let m1 := rest.takeWhile isDigitDot
    let r1 := rest.dropWhile isDigitDot
    if m1.isEmpty then none else
    match r1.dropWhile jsWs with
    | ',' :: r3 =>
      let r4 := r3.dropWhile jsWs
      let m2 := r4.takeWhile isDigitC
      let r5 := r4.dropWhile isDigitC
      if m2.isEmpty then none else
      match r5 with
      | '%' :: r6 =>
        match r6.dropWhile jsWs with
        | ',' :: r8 =>
          let r9 := r8.dropWhile jsWs
          let m3 := r9.takeWhile isDigitC
          let r10 := r9.dropWhile isDigitC
          if m3.isEmpty then none else
          match r10 with
          | ['%', ')'] => some (m1, m2, m3)
          | _ => none
        | _ => none
      | _ => none
    | _ => none
  | _ => none

/-- Spec-side (from the claim's words, for stating C6): the supported HSL
format `hsl(H, S%, L%)` with `H` in degrees in `[0, 360)` and `S`, `L`
percentages, spanning the whole string. -/
def claimHslFormat (cs : List Char) : Bool :=
  match hslMatchFull cs with
  | some (m1, _, _) =>
    match jsParseFloat m1 with
    | some hv => decide (0 ≤ hv ∧ hv < 360)
    | none => false
  | none => false

section ListScanLemmas

variable {α : Type}

theorem takeWhile_of_all (p : α → Bool) (l : List α)
    (h : ∀ c ∈ l, p c = true) : l.takeWhile p = l := by
  induction l with
  | nil => rfl
  | cons x xs ih =>
    simp only [List.takeWhile_cons, h x (by simp)]
    simpa using ih fun c hc => h c (by simp [hc])

theorem takeWhile_append_stop (p : α → Bool) (xs ys : List α)
    (hxs : ∀ c ∈ xs, p c = true)
    (hys : ∀ y, ys.head? = some y → p y = false) :
    (xs ++ ys).takeWhile p = xs := by
  induction xs with
  | nil =>
    cases ys with
    | nil => rfl
    | cons y ys => simp [List.takeWhile_cons, hys y rfl]
  | cons x xs ih =>
    simp only [List.cons_append, List.takeWhile_cons, hxs x (by simp)]
    simpa using ih fun c hc => hxs c (by simp [hc])

theorem dropWhile_append_stop (p : α → Bool) (xs ys : List α)
    (hxs : ∀ c ∈ xs, p c = true)
    (hys : ∀ y, ys.head? = some y → p y = false) :
    (xs ++ ys).dropWhile p = ys := by
  induction xs with
  | nil =>
    cases ys with
    | nil => rfl
    | cons y ys => simp [List.dropWhile_cons, hys y rfl]
  | cons x xs ih =>
    simp only [List.cons_append, List.dropWhile_cons, hxs x (by simp)]
    exact ih fun c hc => hxs c (by simp [hc])

theorem head_fails (p q : α → Bool) (m z : List α)
    (hm : m ≠ []) (hall : ∀ c ∈ m, q c = true) (himp : ∀ c, q c = true → p c = false) :
    ∀ y, (m ++ z).head? = some y → p y = false := by
  cases m with
  | nil => exact absurd rfl hm
  | cons c cs =>
    intro y hy
    simp only [List.cons_append, List.head?_cons, Option.some.injEq] at hy
    exact hy ▸ himp c (hall c (by simp))

theorem head_single (p : α → Bool) (c : α) (z : List α) (hc : p c = false) :
    ∀ y, (c :: z).head? = some y → p y = false := by
  intro y hy
  simp only [List.head?_cons, Option.some.injEq] at hy
  exact hy ▸ hc

end ListScanLemmas

theorem isEmpty_false_of_ne {α : Type} (l : List α) (h : l ≠ []) : l.isEmpty = false := by
  cases l with
  | nil => exact absurd rfl h
  | cons a as => rfl

theorem ws_not_digitDot (c : Char) (h : jsWs c = true) : isDigitDot c = false := by
  simp only [jsWs, Bool.or_eq_true, decide_eq_true_eq, Bool.and_eq_true] at h
  simp only [isDigitDot, isDigitC, Bool.or_eq_false_iff, Bool.and_eq_false_iff,
    decide_eq_false_iff_not]
  omega

theorem ws_not_digit (c : Char) (h : jsWs c = true) : isDigitC c = false := by
  have := ws_not_digitDot c h
  simp only [isDigitDot, Bool.or_eq_false_iff] at this
  exact this.1

theorem digit_not_ws (c : Char) (h : isDigitC c = true) : jsWs c = false := by
  simp only [isDigitC, Bool.and_eq_true, decide_eq_true_eq] at h
  simp only [jsWs, Bool.or_eq_false_iff, Bool.and_eq_false_iff, decide_eq_false_iff_not]
  omega

theorem digitDot_not_ws (c : Char) (h : isDigitDot c = true) : jsWs c = false := by
  simp only [isDigitDot, isDigitC, Bool.or_eq_true, Bool.and_eq_true, decide_eq_true_eq] at h
  simp only [jsWs, Bool.or_eq_false_iff, Bool.and_eq_false_iff, decide_eq_false_iff_not]
  omega

/-- The regex matcher succeeds on a well-formed `hsl(H,S%,L%)` body with
the expected capture groups. -/
theorem hslMatchAt_eq (m1 m2 m3 ws1 ws2 ws3 ws4 : List Char)
    (h1 : m1 ≠ []) (h1d : ∀ c ∈ m1, isDigitDot c = true)
    (h2 : m2 ≠ []) (h2d : ∀ c ∈ m2, isDigitC c = true)
    (h3 : m3 ≠ []) (h3d : ∀ c ∈ m3, isDigitC c = true)
    (w1 : ∀ c ∈ ws1, jsWs c = true) (w2 : ∀ c ∈ ws2, jsWs c = true)
    (w3 : ∀ c ∈ ws3, jsWs c = true) (w4 : ∀ c ∈ ws4, jsWs c = true) :
    hslMatchAt ('h' :: 's' :: 'l' :: '(' ::
        (m1 ++ (ws1 ++ ',' :: (ws2 ++ (m2 ++ '%' :: (ws3 ++ ',' :: (ws4 ++ (m3 ++ ['%', ')']))))))))
      = some (m1, m2, m3) := by
  have hcomma1 : ∀ y, (ws1 ++ ',' :: (ws2 ++ (m2 ++ '%' :: (ws3 ++ ',' :: (ws4 ++ (m3 ++ ['%', ')'])))))).head? = some y → isDigitDot y = false := by
    cases ws1 with
    | nil => exact head_single _ _ _ (by decide)
    | cons c cs =>
      exact head_fails isDigitDot jsWs (c :: cs) _ (by simp) w1 ws_not_digitDot
  have e1 := takeWhile_append_stop isDigitDot m1 _ h1d hcomma1
  have e2 := dropWhile_append_stop isDigitDot m1 _ h1d hcomma1
  have e3 := dropWhile_append_stop jsWs ws1
    (',' :: (ws2 ++ (m2 ++ '%' :: (ws3 ++ ',' :: (ws4 ++ (m3 ++ ['%', ')'])))))) w1
    (head_single _ _ _ (by decide))
  have e4 := dropWhile_append_stop jsWs ws2 (m2 ++ '%' :: (ws3 ++ ',' :: (ws4 ++ (m3 ++ ['%', ')']))))
    w2 (head_fails jsWs isDigitC m2 _ h2 h2d digit_not_ws)
  have e5 := takeWhile_append_stop isDigitC m2 ('%' :: (ws3 ++ ',' :: (ws4 ++ (m3 ++ ['%', ')']))))
    h2d (head_single _ _ _ (by decide))
  have e6 := dropWhile_append_stop isDigitC m2 ('%' :: (ws3 ++ ',' :: (ws4 ++ (m3 ++ ['%', ')']))))
    h2d (head_single _ _ _ (by decide))
  have e7 := dropWhile_append_stop jsWs ws3 (',' :: (ws4 ++ (m3 ++ ['%', ')']))) w3
    (head_single _ _ _ (by decide))
  have e8 := dropWhile_append_stop jsWs ws4 (m3 ++ ['%', ')']) w4
    (head_fails jsWs isDigitC m3 _ h3 h3d digit_not_ws)
  have e9 := takeWhile_append_stop isDigitC m3 ['%', ')'] h3d (head_single _ _ _ (by decide))
  have e10 := dropWhile_append_stop isDigitC m3 ['%', ')'] h3d (head_single _ _ _ (by decide))
  simp only [hslMatchAt, e1, e2, e3, e4, e5, e6, e7, e8, e9, e10,
    isEmpty_false_of_ne m1 h1, isEmpty_false_of_ne m2 h2, isEmpty_false_of_ne m3 h3,
    Bool.false_eq_true, if_false]


theorem jsParseIntDec_all (ds : List Char) (h : ds ≠ []) (hd : ∀ c ∈ ds, isDigitC c = true) :
    jsParseIntDec ds = some ((digitsVal ds : ℕ) : ℚ) := by
  simp [jsParseIntDec, takeWhile_of_all _ _ hd, isEmpty_false_of_ne _ h]

theorem jsParseIntHex_pair (a b : Char) (va vb : ℕ)
    (ha : hexDigitVal? a = some va) (hb : hexDigitVal? b = some vb) :
    jsParseIntHex [a, b] = some (((16 * va + vb : ℕ) : ℚ)) := by
  have hnx : hexDigitVal? 'x' = none := by decide
  have hnX : hexDigitVal? 'X' = none := by decide
  have hbx : b ≠ 'x' := by
    intro h; rw [h, hnx] at hb; exact Option.noConfusion hb
  have hbX : b ≠ 'X' := by
    intro h; rw [h, hnX] at hb; exact Option.noConfusion hb
  have hcond : ¬([a, b].take 2 = ['0', 'x'] ∨ [a, b].take 2 = ['0', 'X']) := by
    rintro (h | h) <;> simp only [List.take, List.cons.injEq, and_true] at h
    · exact hbx h.2
    · exact hbX h.2
  have e : List.takeWhile (fun c => (hexDigitVal? c).isSome) [a, b] = [a, b] := by
    refine takeWhile_of_all _ _ ?_
    intro c hcm
    simp only [List.mem_cons, List.not_mem_nil, or_false] at hcm
    rcases hcm with rfl | rfl
    · simp [ha]
    · simp [hb]
  have hv : hexVal [a, b] = 16 * va + vb := by
    simp [hexVal, ha, hb]
  simp only [jsParseIntHex]
  rw [if_neg hcond, e]
  simp [hv]

theorem parseColor_hash (a b c d e f : Char) (rest : List Char)
    (va vb vc vd ve vf : ℕ)
    (ha : hexDigitVal? a = some va) (hb : hexDigitVal? b = some vb)
    (hc : hexDigitVal? c = some vc) (hd : hexDigitVal? d = some vd)
    (he : hexDigitVal? e = some ve) (hf : hexDigitVal? f = some vf) :
    parseColor ('#' :: a :: b :: c :: d :: e :: f :: rest) =
      [some (((16 * va + vb : ℕ) : ℚ) / 255),
       some (((16 * vc + vd : ℕ) : ℚ) / 255),
       some (((16 * ve + vf : ℕ) : ℚ) / 255), some 1] := by
  have h1 : ['h', 's', 'l'].isPrefixOf ('#' :: a :: b :: c :: d :: e :: f :: rest) = false := by
    simp [List.isPrefixOf]
  have h2 : ['#'].isPrefixOf ('#' :: a :: b :: c :: d :: e :: f :: rest) = true := by
    simp [List.isPrefixOf]
  simp only [parseColor, h1, Bool.false_eq_true, if_false, parseColorTail, h2, if_true,
    List.drop, List.take]
  rw [jsParseIntHex_pair a b va vb ha hb, jsParseIntHex_pair c d vc vd hc hd,
    jsParseIntHex_pair e f ve vf he hf]
  simp [jsDiv]

/-- Claim C4: for every color string of the form `#RRGGBB` with six hex
digits, `parseColor` returns `(r/255, g/255, b/255, 1.0)` where `r`, `g`,
`b` are the values of the three hex-digit pairs. -/
theorem claim_C4 (a b c d e f : Char) (va vb vc vd ve vf : ℕ)
    (ha : hexDigitVal? a = some va) (hb : hexDigitVal? b = some vb)
    (hc : hexDigitVal? c = some vc) (hd : hexDigitVal? d = some vd)
    (he : hexDigitVal? e = some ve) (hf : hexDigitVal? f = some vf) :
    parseColor ['#', a, b, c, d, e, f] =
      [some (((16 * va + vb : ℕ) : ℚ) / 255),
       some (((16 * vc + vd : ℕ) : ℚ) / 255),
       some (((16 * ve + vf : ℕ) : ℚ) / 255), some 1] :=
  parseColor_hash a b c d e f [] va vb vc vd ve vf ha hb hc hd he hf

/-- Witness for C4 at the claim's concrete inputs:
`#ff0000 → (1,0,0,1)` and `#000000 → (0,0,0,1)`. -/
theorem claim_C4_witness :
    parseColor ['#', 'f', 'f', '0', '0', '0', '0'] = [some 1, some 0, some 0, some 1] ∧
    parseColor ['#', '0', '0', '0', '0', '0', '0'] = [some 0, some 0, some 0, some 1] := by
  constructor
  · rw [claim_C4 'f' 'f' '0' '0' '0' '0' 15 15 0 0 0 0
      (by decide) (by decide) (by decide) (by decide) (by decide) (by decide)]
    norm_num
  · rw [claim_C4 '0' '0' '0' '0' '0' '0' 0 0 0 0 0 0
      (by decide) (by decide) (by decide) (by decide) (by decide) (by decide)]
    norm_num

theorem jsAdd_some (a b : ℚ) : jsAdd (some a) (some b) = some (a + b) := rfl

theorem jsSub_some (a b : ℚ) : jsSub (some a) (some b) = some (a - b) := rfl

theorem jsMul_some (a b : ℚ) : jsMul (some a) (some b) = some (a * b) := rfl

theorem jsLt_some (a b : ℚ) : jsLt (some a) (some b) = decide (a < b) := rfl

theorem jsEq_some (a c : ℚ) : jsEq (some a) c = decide (a = c) := rfl

theorem hue2rgb_some (p q t : ℚ) :
    hue2rgb (some p) (some q) (some t) = some (hue2rgbQ p q t) := by
  simp only [hue2rgb, hue2rgbQ, jsLt_some, jsAdd_some, jsSub_some, jsMul_some,
    decide_eq_true_eq, ← apply_ite (f := some)]

/-- Claim C5: for every color string of the form `hsl(H, S%, L%)` with `H`
in degrees in `[0, 360)` and `S`, `L` integer percentages, `parseColor`
returns the standard HSL→RGB conversion (`hslToRgbQ`: the achromatic
shortcut when `S = 0`, otherwise the six-segment hue helper) with alpha
fixed to 1. -/
theorem claim_C5 (m1 m2 m3 ws1 ws2 ws3 ws4 : List Char) (hv : ℚ)
    (h1 : m1 ≠ []) (h1d : ∀ c ∈ m1, isDigitDot c = true)
    (hpf : jsParseFloat m1 = some hv) (hlo : 0 ≤ hv) (hhi : hv < 360)
    (h2 : m2 ≠ []) (h2d : ∀ c ∈ m2, isDigitC c = true)
    (h3 : m3 ≠ []) (h3d : ∀ c ∈ m3, isDigitC c = true)
    (w1 : ∀ c ∈ ws1, jsWs c = true) (w2 : ∀ c ∈ ws2, jsWs c = true)
    (w3 : ∀ c ∈ ws3, jsWs c = true) (w4 : ∀ c ∈ ws4, jsWs c = true) :
    parseColor ('h' :: 's' :: 'l' :: '(' ::
        (m1 ++ (ws1 ++ ',' :: (ws2 ++ (m2 ++ '%' :: (ws3 ++ ',' :: (ws4 ++ (m3 ++ ['%', ')']))))))))
      = [some (hslToRgbQ (hv / 360) ((digitsVal m2 : ℚ) / 100) ((digitsVal m3 : ℚ) / 100)).1,
         some (hslToRgbQ (hv / 360) ((digitsVal m2 : ℚ) / 100) ((digitsVal m3 : ℚ) / 100)).2.1,
         some (hslToRgbQ (hv / 360) ((digitsVal m2 : ℚ) / 100) ((digitsVal m3 : ℚ) / 100)).2.2,
         some 1] := by
  have hm := hslMatchAt_eq m1 m2 m3 ws1 ws2 ws3 ws4 h1 h1d h2 h2d h3 h3d w1 w2 w3 w4
  have hpre : ['h', 's', 'l'].isPrefixOf ('h' :: 's' :: 'l' :: '(' ::
      (m1 ++ (ws1 ++ ',' :: (ws2 ++ (m2 ++ '%' :: (ws3 ++ ',' :: (ws4 ++ (m3 ++ ['%', ')'])))))))) = true := by
    simp [List.isPrefixOf]
  have hscan : hslScan ('h' :: 's' :: 'l' :: '(' ::
      (m1 ++ (ws1 ++ ',' :: (ws2 ++ (m2 ++ '%' :: (ws3 ++ ',' :: (ws4 ++ (m3 ++ ['%', ')'])))))))) =
      some (m1, m2, m3) := by
    rw [hslScan, hm]
  rw [parseColor.eq_def]
  simp only [hpre, if_true, hscan, hpf, jsParseIntDec_all m2 h2 h2d, jsParseIntDec_all m3 h3 h3d,
    jsDiv, Option.map_some']
  simp only [jsEq, decide_eq_true_eq, hslToRgbQ]
  by_cases hs : ((digitsVal m2 : ℚ) / 100) = 0
  · simp [hs]
  · by_cases hq : ((digitsVal m3 : ℚ) / 100) < 2⁻¹ <;>
      simp [hs, hq, jsLt_some, jsAdd_some, jsSub_some, jsMul_some, hue2rgb_some]

/-- Witness for C5 at the claim's concrete inputs:
`hsl(0,100%,50%) → (1,0,0,1)` and `hsl(120,100%,50%) → (0,1,0,1)`. -/
theorem claim_C5_witness :
    parseColor ['h', 's', 'l', '(', '0', ',', '1', '0', '0', '%', ',', '5', '0', '%', ')']
      = [some 1, some 0, some 0, some 1] ∧
    parseColor ['h', 's', 'l', '(', '1', '2', '0', ',', '1', '0', '0', '%', ',', '5', '0', '%', ')']
      = [some 0, some 1, some 0, some 1] := by
  have d100 : digitsVal ['1', '0', '0'] = 100 := by decide
  have d50 : digitsVal ['5', '0'] = 50 := by decide
  constructor
  · have h0 : digitsVal ['0'] = 0 := by decide
    have h : parseColor ['h', 's', 'l', '(', '0', ',', '1', '0', '0', '%', ',', '5', '0', '%', ')']
        = [some (hslToRgbQ ((digitsVal ['0'] : ℚ) / 360) ((digitsVal ['1', '0', '0'] : ℚ) / 100)
              ((digitsVal ['5', '0'] : ℚ) / 100)).1,
           some (hslToRgbQ ((digitsVal ['0'] : ℚ) / 360) ((digitsVal ['1', '0', '0'] : ℚ) / 100)
              ((digitsVal ['5', '0'] : ℚ) / 100)).2.1,
           some (hslToRgbQ ((digitsVal ['0'] : ℚ) / 360) ((digitsVal ['1', '0', '0'] : ℚ) / 100)
              ((digitsVal ['5', '0'] : ℚ) / 100)).2.2,
           some 1] :=
      claim_C5 ['0'] ['1', '0', '0'] ['5', '0'] [] [] [] [] ((digitsVal ['0'] : ℕ) : ℚ)
        (by simp) (by decide) rfl (Nat.cast_nonneg _) (by rw [h0]; norm_num)
        (by simp) (by decide) (by simp) (by decide)
        (by simp) (by simp) (by simp) (by simp)
    rw [h, h0, d100, d50]
    norm_num [hslToRgbQ, hue2rgbQ]
  · have h120 : digitsVal ['1', '2', '0'] = 120 := by decide
    have h : parseColor ['h', 's', 'l', '(', '1', '2', '0', ',', '1', '0', '0', '%', ',', '5', '0', '%', ')']
        = [some (hslToRgbQ ((digitsVal ['1', '2', '0'] : ℚ) / 360) ((digitsVal ['1', '0', '0'] : ℚ) / 100)
              ((digitsVal ['5', '0'] : ℚ) / 100)).1,
           some (hslToRgbQ ((digitsVal ['1', '2', '0'] : ℚ) / 360) ((digitsVal ['1', '0', '0'] : ℚ) / 100)
              ((digitsVal ['5', '0'] : ℚ) / 100)).2.1,
           some (hslToRgbQ ((digitsVal ['1', '2', '0'] : ℚ) / 360) ((digitsVal ['1', '0', '0'] : ℚ) / 100)
              ((digitsVal ['5', '0'] : ℚ) / 100)).2.2,
           some 1] :=
      claim_C5 ['1', '2', '0'] ['1', '0', '0'] ['5', '0'] [] [] [] []
        ((digitsVal ['1', '2', '0'] : ℕ) : ℚ)
        (by simp) (by decide) rfl (Nat.cast_nonneg _) (by rw [h120]; norm_num)
        (by simp) (by decide) (by simp) (by decide)
        (by simp) (by simp) (by simp) (by simp)
    rw [h, h120, d100, d50]
    norm_num [hslToRgbQ, hue2rgbQ]

/-- Claim C6, amended: every input string that neither starts with `#` nor
(when it starts with `hsl`) contains an occurrence of the HSL pattern —
including the empty string and names such as `purple` — resolves to
opaque black `(0,0,0,1)` without raising an error. -/
theorem claim_C6 (cs : List Char)
    (hhash : ['#'].isPrefixOf cs = false)
    (hhsl : ['h', 's', 'l'].isPrefixOf cs = true → hslScan cs = none) :
    parseColor cs = [some 0, some 0, some 0, some 1] := by
  rw [parseColor.eq_def]
  by_cases hp : ['h', 's', 'l'].isPrefixOf cs = true
  · simp only [hp, if_true, hhsl hp]
    rw [parseColorTail.eq_def]
    simp [hhash]
  · simp only [Bool.not_eq_true] at hp
    simp only [hp, Bool.false_eq_true, if_false]
    rw [parseColorTail.eq_def]
    simp [hhash]

/-- Witness for the amended C6 at the claim's concrete input `"purple"`. -/
theorem claim_C6_witness :
    (['#'].isPrefixOf ['p', 'u', 'r', 'p', 'l', 'e'] = false) ∧
    parseColor ['p', 'u', 'r', 'p', 'l', 'e'] = [some 0, some 0, some 0, some 1] :=
  ⟨by decide, claim_C6 ['p', 'u', 'r', 'p', 'l', 'e'] (by decide) (by decide)⟩

/-- Counterexample to C6 as stated: `"#ff0000aa"` is not one of the two
supported formats (it is not `#RRGGBB` — nine characters — and not
`hsl(H,S%,L%)`), yet `parseColor` returns opaque red, not opaque black:
the hex branch only checks `startsWith("#")` and reads six characters. -/
theorem claim_C6_counterexample :
    claimHexFormat ['#', 'f', 'f', '0', '0', '0', '0', 'a', 'a'] = false ∧
    claimHslFormat ['#', 'f', 'f', '0', '0', '0', '0', 'a', 'a'] = false ∧
    parseColor ['#', 'f', 'f', '0', '0', '0', '0', 'a', 'a'] = [some 1, some 0, some 0, some 1] ∧
    parseColor ['#', 'f', 'f', '0', '0', '0', '0', 'a', 'a'] ≠ [some 0, some 0, some 0, some 1] := by
  have hred : parseColor ['#', 'f', 'f', '0', '0', '0', '0', 'a', 'a']
      = [some 1, some 0, some 0, some 1] := by
    rw [parseColor_hash 'f' 'f' '0' '0' '0' '0' ['a', 'a'] 15 15 0 0 0 0
      (by decide) (by decide) (by decide) (by decide) (by decide) (by decide)]
    norm_num
  refine ⟨by decide, rfl, hred, ?_⟩
  rw [hred]
  simp

theorem runCmds_append (s : GLState) (l1 l2 : List GLCmd) :
    runCmds s (l1 ++ l2) =
      ((runCmds (runCmds s l1).1 l2).1,
       (runCmds s l1).2 ++ (runCmds (runCmds s l1).1 l2).2) := by
  induction l1 generalizing s with
  | nil => simp [runCmds]
  | cons c cs ih => simp [runCmds, ih, List.append_assoc]

theorem runCmds_setup (s : GLState) (w h : ℚ) (positions sizes colors : List JsNum) :
    runCmds s (setupCmds w h positions sizes colors) =
      ({ s with bound := some .instanceColorBuffer,
                posData := positions, sizeData := sizes, colorData := colors }, []) := rfl

theorem runCmds_cleanup (s : GLState) : runCmds s cleanupCmds = (s, []) := rfl

theorem runCmds_batched (s : GLState) (cvc n : ℕ) :
    runCmds s (batchedCmds cvc n) =
      ({ s with divInstancePosition := 0, divInstanceSize := 0, divInstanceColor := 0 },
       [⟨true, .triangleFan, 0, cvc, n, s.posData, s.sizeData, s.colorData⟩]) := rfl

theorem runCmds_fallbackBlock (s : GLState) (positions sizes colors : List JsNum) (cvc i : ℕ) :
    runCmds s (fallbackBlock positions sizes colors cvc i) =
      ({ s with bound := some .instanceColorBuffer,
                posData := [positions.getD (i * 2) none, positions.getD (i * 2 + 1) none],
                sizeData := [sizes.getD i none],
                colorData := [colors.getD (i * 4) none, colors.getD (i * 4 + 1) none,
                              colors.getD (i * 4 + 2) none, colors.getD (i * 4 + 3) none] },
       [fallbackEvent positions sizes colors cvc i]) := rfl

theorem runCmds_blocks (positions sizes colors : List JsNum) (cvc : ℕ) (l : List ℕ)
    (s : GLState) :
    (runCmds s (l.flatMap (fallbackBlock positions sizes colors cvc))).2 =
      l.map (fallbackEvent positions sizes colors cvc) := by
  induction l generalizing s with
  | nil => rfl
  | cons i tl ih =>
    rw [List.flatMap_cons, runCmds_append, runCmds_fallbackBlock]
    simp [ih]

theorem length_ne_zero_of_ne_nil {α : Type} (l : List α) (h : l ≠ []) : ¬l.length = 0 := by
  cases l with
  | nil => exact absurd rfl h
  | cons a as => simp

/-- Running the batched trace: one instanced draw event carrying the full
instance arrays, and a final state whose instance step rates are back
to 0. -/
theorem runBatched (s : GLState) (w h : ℚ) (cvc : ℕ) (ps : List Particle) (hne : ps ≠ []) :
    runCmds s (Renderer.drawParticles ⟨true, w, h, cvc⟩ (some ps)) =
      ({ s with bound := some .instanceColorBuffer,
                posData := instancePositions ps, sizeData := instanceSizes ps,
                colorData := instanceColors ps,
                divInstancePosition := 0, divInstanceSize := 0, divInstanceColor := 0 },
       [⟨true, .triangleFan, 0, cvc, ps.length,
         instancePositions ps, instanceSizes ps, instanceColors ps⟩]) := by
  simp only [Renderer.drawParticles]
  rw [if_neg (length_ne_zero_of_ne_nil ps hne)]
  rw [runCmds_append, runCmds_append, runCmds_setup]
  simp only [if_true]
  rw [runCmds_batched]
  simp [runCmds_cleanup]

/-- Running the fallback trace: one draw event per particle, in input
order, each carrying the single-element slices at that index. -/
theorem runFallback_events (s : GLState) (w h : ℚ) (cvc : ℕ) (ps : List Particle)
    (hne : ps ≠ []) :
    (runCmds s (Renderer.drawParticles ⟨false, w, h, cvc⟩ (some ps))).2 =
      (List.range ps.length).map
        (fallbackEvent (instancePositions ps) (instanceSizes ps) (instanceColors ps) cvc) := by
  simp only [Renderer.drawParticles]
  rw [if_neg (length_ne_zero_of_ne_nil ps hne)]
  rw [runCmds_append, runCmds_append, runCmds_setup]
  simp only [Bool.false_eq_true, if_false]
  rw [runCmds_blocks]
  simp [runCmds_cleanup]

theorem instancePositions_cons (p : Particle) (tl : List Particle) :
    instancePositions (p :: tl) = some p.x :: some p.y :: instancePositions tl := rfl

theorem instanceColors_cons (p : Particle) (tl : List Particle) :
    instanceColors (p :: tl) = parseColor p.color ++ instanceColors tl := rfl

theorem parseColorTail_length (c : List Char) : (parseColorTail c).length = 4 := by
  rw [parseColorTail.eq_def]
  split <;> rfl

theorem parseColor_length (c : List Char) : (parseColor c).length = 4 := by
  rw [parseColor.eq_def]
  split
  · split
    · dsimp only
      split <;> rfl
    · exact parseColorTail_length c
  · exact parseColorTail_length c

theorem instancePositions_getD (ps : List Particle) (i : ℕ) (hi : i < ps.length) :
    (instancePositions ps).getD (i * 2) none = some (ps.get ⟨i, hi⟩).x ∧
    (instancePositions ps).getD (i * 2 + 1) none = some (ps.get ⟨i, hi⟩).y := by
  induction ps generalizing i with
  | nil => simp at hi
  | cons p tl ih =>
    cases i with
    | zero => simp [instancePositions_cons]
    | succ j =>
      have hj : j < tl.length := by simpa using hi
      have e : (j + 1) * 2 = j * 2 + 1 + 1 := by ring
      rw [instancePositions_cons, e]
      simpa [List.getD_cons_succ] using ih j hj

theorem instanceSizes_getD (ps : List Particle) (i : ℕ) (hi : i < ps.length) :
    (instanceSizes ps).getD i none = some (ps.get ⟨i, hi⟩).size := by
  induction ps generalizing i with
  | nil => simp at hi
  | cons p tl ih =>
    cases i with
    | zero => simp [instanceSizes]
    | succ j =>
      have hj : j < tl.length := by simpa using hi
      simpa [instanceSizes, List.getD_cons_succ] using ih j hj

theorem instanceColors_getD (ps : List Particle) (i : ℕ) (hi : i < ps.length)
    (k : ℕ) (hk : k < 4) :
    (instanceColors ps).getD (i * 4 + k) none =
      (parseColor (ps.get ⟨i, hi⟩).color).getD k none := by
  induction ps generalizing i with
  | nil => simp at hi
  | cons p tl ih =>
    cases i with
    | zero =>
      rw [instanceColors_cons]
      simp only [Nat.zero_mul, Nat.zero_add]
      rw [List.getD_append]
      · rfl
      · rw [parseColor_length]
        exact hk
    | succ j =>
      have hj : j < tl.length := by simpa using hi
      have e : (j + 1) * 4 + k = (parseColor p.color).length + (j * 4 + k) := by
        rw [parseColor_length]; ring
      rw [instanceColors_cons, e, List.getD_append_right _ _ _ _ (Nat.le_add_right _ _),
        Nat.add_sub_cancel_left]
      exact ih j hj

theorem list4_getD (l : List JsNum) (h : l.length = 4) :
    [l.getD 0 none, l.getD 1 none, l.getD 2 none, l.getD 3 none] = l := by
  rcases l with _ | ⟨a, _ | ⟨b, _ | ⟨c, _ | ⟨d, _ | e⟩⟩⟩⟩ <;> simp_all

/-- The fallback event at index `i` carries exactly the `i`-th particle's
data. -/
theorem fallbackEvent_eq (ps : List Particle) (cvc i : ℕ) (hi : i < ps.length) :
    fallbackEvent (instancePositions ps) (instanceSizes ps) (instanceColors ps) cvc i =
      ⟨false, .triangleFan, 0, cvc, 1,
       [some (ps.get ⟨i, hi⟩).x, some (ps.get ⟨i, hi⟩).y],
       [some (ps.get ⟨i, hi⟩).size],
       parseColor (ps.get ⟨i, hi⟩).color⟩ := by
  have hp := instancePositions_getD ps i hi
  have hs := instanceSizes_getD ps i hi
  have hc0 := instanceColors_getD ps i hi 0 (by omega)
  have hc1 := instanceColors_getD ps i hi 1 (by omega)
  have hc2 := instanceColors_getD ps i hi 2 (by omega)
  have hc3 := instanceColors_getD ps i hi 3 (by omega)
  rw [fallbackEvent, hp.1, hp.2, hs]
  rw [show i * 4 + 0 = i * 4 from rfl] at hc0
  rw [hc0, hc1, hc2, hc3, list4_getD _ (parseColor_length _)]

theorem drawCmds_blocks (positions sizes colors : List JsNum) (cvc : ℕ) (l : List ℕ) :
    drawCmds (l.flatMap (fallbackBlock positions sizes colors cvc)) =
      List.replicate l.length (.drawArrays .triangleFan 0 cvc) := by
  induction l with
  | nil => rfl
  | cons i tl ih =>
    rw [List.flatMap_cons, drawCmds, List.filter_append]
    rw [show List.filter GLCmd.isDraw (fallbackBlock positions sizes colors cvc i) =
      [.drawArrays .triangleFan 0 cvc] from rfl]
    rw [show List.replicate (i :: tl).length (GLCmd.drawArrays .triangleFan 0 cvc) =
      .drawArrays .triangleFan 0 cvc :: List.replicate tl.length (.drawArrays .triangleFan 0 cvc)
      from rfl]
    simpa [drawCmds] using ih

/-- Claim C1: for every particle list of length `N ≥ 0`, `drawParticles`
issues exactly one draw command when instancing was detected (the single
instanced `TRIANGLE_FAN` draw with `instanceCount = N`), exactly `N` draw
commands otherwise, and zero draw commands in both cases when `N = 0`
(the call is a no-op with an empty trace). -/
theorem claim_C1 (b : Bool) (w h : ℚ) (cvc : ℕ) (ps : List Particle) :
    (drawCmds (Renderer.drawParticles ⟨b, w, h, cvc⟩ (some ps)) =
      if ps.length = 0 then []
      else if b then [.drawArraysInstanced .triangleFan 0 cvc ps.length]
      else List.replicate ps.length (.drawArrays .triangleFan 0 cvc)) ∧
    ((drawCmds (Renderer.drawParticles ⟨b, w, h, cvc⟩ (some ps))).length =
      if ps.length = 0 then 0 else if b then 1 else ps.length) ∧
    (ps.length = 0 → Renderer.drawParticles ⟨b, w, h, cvc⟩ (some ps) = []) := by
  by_cases hz : ps.length = 0
  · refine ⟨?_, ?_, fun _ => ?_⟩ <;>
      simp [Renderer.drawParticles, hz, drawCmds]
  · have h1 : drawCmds (Renderer.drawParticles ⟨b, w, h, cvc⟩ (some ps)) =
        if b then [.drawArraysInstanced .triangleFan 0 cvc ps.length]
        else List.replicate ps.length (.drawArrays .triangleFan 0 cvc) := by
      simp only [Renderer.drawParticles]
      rw [if_neg hz]
      cases b with
      | true =>
        simp only [if_true]
        rw [drawCmds, List.filter_append, List.filter_append]
        rw [show List.filter GLCmd.isDraw
            (setupCmds w h (instancePositions ps) (instanceSizes ps) (instanceColors ps)) = []
          from rfl]
        rw [show List.filter GLCmd.isDraw (batchedCmds cvc ps.length) =
            [.drawArraysInstanced .triangleFan 0 cvc ps.length] from rfl]
        rfl
      | false =>
        simp only [Bool.false_eq_true, if_false]
        rw [drawCmds, List.filter_append, List.filter_append]
        rw [show List.filter GLCmd.isDraw
            (setupCmds w h (instancePositions ps) (instanceSizes ps) (instanceColors ps)) = []
          from rfl]
        have hb := drawCmds_blocks (instancePositions ps) (instanceSizes ps)
          (instanceColors ps) cvc (List.range ps.length)
        rw [drawCmds] at hb
        rw [hb]
        simp only [List.length_range]
        rw [show List.filter GLCmd.isDraw cleanupCmds = [] from rfl]
        simp
    refine ⟨?_, ?_, fun hc => absurd hc hz⟩
    · rw [if_neg hz]
      exact h1
    · rw [h1, if_neg hz]
      cases b <;> simp [hz]

/-- Claim C9: calling `drawParticles` with a `null`/`undefined` particles
argument returns immediately: the trace is empty, so no arrays are built,
nothing is uploaded and no draw command is issued. -/
theorem claim_C9 (r : Renderer) : r.drawParticles none = [] := rfl

/-- Claim C2: in the fallback path the draw events are exactly one per
particle, in input order (event `i` is the `i`-th draw issued and carries
the `i`-th particle's data), each uploading the single-element slices of
that particle's position, size and color and drawing the same template
shape (`first = 0`, `count = circleVertexCount`).  A particle at a later
index is therefore drawn after any earlier one. -/
theorem claim_C2 (w h : ℚ) (cvc : ℕ) (s : GLState) (ps : List Particle) (hne : ps ≠ []) :
    ((runCmds s (Renderer.drawParticles ⟨false, w, h, cvc⟩ (some ps))).2.length = ps.length) ∧
    (∀ i (hi : i < ps.length),
      (runCmds s (Renderer.drawParticles ⟨false, w, h, cvc⟩ (some ps))).2.get? i =
        some ⟨false, .triangleFan, 0, cvc, 1,
          [some (ps.get ⟨i, hi⟩).x, some (ps.get ⟨i, hi⟩).y],
          [some (ps.get ⟨i, hi⟩).size],
          parseColor (ps.get ⟨i, hi⟩).color⟩) := by
  rw [runFallback_events s w h cvc ps hne]
  constructor
  · simp
  · intro i hi
    rw [List.get?_map, List.get?_range hi]
    rw [Option.map_some', fallbackEvent_eq ps cvc i hi]

/-- Claim C3: the instance arrays built from the snapshot satisfy
`positions.length = 2N`, `sizes.length = N`, `colors.length = 4N`, and
they are pure functions of the particle snapshot alone (they are
recomputed from scratch by every call; no state is carried over, as the
builders take only the snapshot as input). -/
theorem claim_C3 (ps : List Particle) :
    (instancePositions ps).length = 2 * ps.length ∧
    (instanceSizes ps).length = ps.length ∧
    (instanceColors ps).length = 4 * ps.length := by
  refine ⟨?_, by simp [instanceSizes], ?_⟩
  · induction ps with
    | nil => rfl
    | cons p tl ih =>
      rw [instancePositions_cons]
      simp only [List.length_cons]
      omega
  · induction ps with
    | nil => rfl
    | cons p tl ih =>
      rw [instanceColors_cons, List.length_append, parseColor_length]
      simp only [List.length_cons]
      omega

/-- Claim C7: after the batched path's single instanced draw, the
instance step rates (attribute divisors) of the three per-instance
attributes are reset to 0 before the call returns, whatever their
initial values were. -/
theorem claim_C7 (w h : ℚ) (cvc : ℕ) (s : GLState) (ps : List Particle) (hne : ps ≠ []) :
    ((runCmds s (Renderer.drawParticles ⟨true, w, h, cvc⟩ (some ps))).1.divInstancePosition = 0) ∧
    ((runCmds s (Renderer.drawParticles ⟨true, w, h, cvc⟩ (some ps))).1.divInstanceSize = 0) ∧
    ((runCmds s (Renderer.drawParticles ⟨true, w, h, cvc⟩ (some ps))).1.divInstanceColor = 0) := by
  rw [runBatched s w h cvc ps hne]
  exact ⟨rfl, rfl, rfl⟩

/-- Witness for C7 at a concrete renderer state and one-particle list. -/
theorem claim_C7_witness :
    ((⟨10, 10, 5, ['#', 'f', 'f', '0', '0', '0', '0']⟩ : Particle) :: [] ≠ []) ∧
    ((runCmds ⟨none, [], [], [], [], 0, 7, 7, 7⟩
        (Renderer.drawParticles ⟨true, 100, 100, 14⟩
          (some [⟨10, 10, 5, ['#', 'f', 'f', '0', '0', '0', '0']⟩]))).1.divInstancePosition = 0) ∧
    ((runCmds ⟨none, [], [], [], [], 0, 7, 7, 7⟩
        (Renderer.drawParticles ⟨true, 100, 100, 14⟩
          (some [⟨10, 10, 5, ['#', 'f', 'f', '0', '0', '0', '0']⟩]))).1.divInstanceSize = 0) ∧
    ((runCmds ⟨none, [], [], [], [], 0, 7, 7, 7⟩
        (Renderer.drawParticles ⟨true, 100, 100, 14⟩
          (some [⟨10, 10, 5, ['#', 'f', 'f', '0', '0', '0', '0']⟩]))).1.divInstanceColor = 0) := by
  refine ⟨by simp, ?_⟩
  exact claim_C7 100 100 14 ⟨none, [], [], [], [], 0, 7, 7, 7⟩
    [⟨10, 10, 5, ['#', 'f', 'f', '0', '0', '0', '0']⟩] (by simp)

/-- Claim C10: the batched and fallback paths submit identical attribute
data per particle: the batched path issues exactly one event carrying the
full arrays, the fallback path one event per particle, and the fallback
event at index `i` carries exactly the elements `positions[2i..]`,
`sizes[i]`, `colors[4i..]` of the arrays the batched event uploads whole
(both are built from the same snapshot before the branch). -/
theorem claim_C10 (w h : ℚ) (cvc : ℕ) (s0 s1 : GLState) (ps : List Particle) (hne : ps ≠ []) :
    ((runCmds s0 (Renderer.drawParticles ⟨true, w, h, cvc⟩ (some ps))).2.length = 1) ∧
    ((runCmds s1 (Renderer.drawParticles ⟨false, w, h, cvc⟩ (some ps))).2.length = ps.length) ∧
    (∀ i, i < ps.length → ∀ eB eF,
      (runCmds s0 (Renderer.drawParticles ⟨true, w, h, cvc⟩ (some ps))).2.get? 0 = some eB →
      (runCmds s1 (Renderer.drawParticles ⟨false, w, h, cvc⟩ (some ps))).2.get? i = some eF →
      eF.posData = [eB.posData.getD (i * 2) none, eB.posData.getD (i * 2 + 1) none] ∧
      eF.sizeData = [eB.sizeData.getD i none] ∧
      eF.colorData = [eB.colorData.getD (i * 4) none, eB.colorData.getD (i * 4 + 1) none,
                      eB.colorData.getD (i * 4 + 2) none, eB.colorData.getD (i * 4 + 3) none]) := by
  rw [runBatched s0 w h cvc ps hne, runFallback_events s1 w h cvc ps hne]
  refine ⟨rfl, by simp, ?_⟩
  intro i hi eB eF hB hF
  rw [List.get?_map, List.get?_range hi, Option.map_some'] at hF
  simp only [List.get?_cons_zero, Option.some.injEq] at hB
  cases hB
  cases Option.some.injEq .. ▸ hF
  exact ⟨rfl, rfl, rfl⟩

/-- Witness for C2 at a concrete state and one-particle list. -/
theorem claim_C2_witness :
    ((⟨10, 10, 5, ['#', 'f', 'f', '0', '0', '0', '0']⟩ : Particle) :: [] ≠ []) ∧
    ((runCmds ⟨none, [], [], [], [], 0, 0, 0, 0⟩
        (Renderer.drawParticles ⟨false, 100, 100, 14⟩
          (some [⟨10, 10, 5, ['#', 'f', 'f', '0', '0', '0', '0']⟩]))).2.length = 1) := by
  refine ⟨by simp, ?_⟩
  exact (claim_C2 100 100 14 ⟨none, [], [], [], [], 0, 0, 0, 0⟩
    [⟨10, 10, 5, ['#', 'f', 'f', '0', '0', '0', '0']⟩] (by simp)).1

/-- Witness for C10 at concrete states and a one-particle list. -/
theorem claim_C10_witness :
    ((⟨10, 10, 5, ['#', 'f', 'f', '0', '0', '0', '0']⟩ : Particle) :: [] ≠ []) ∧
    ((runCmds ⟨none, [], [], [], [], 0, 0, 0, 0⟩
        (Renderer.drawParticles ⟨true, 100, 100, 14⟩
          (some [⟨10, 10, 5, ['#', 'f', 'f', '0', '0', '0', '0']⟩]))).2.length = 1) := by
  refine ⟨by simp, ?_⟩
  exact (claim_C10 100 100 14 ⟨none, [], [], [], [], 0, 0, 0, 0⟩
    ⟨none, [], [], [], [], 0, 0, 0, 0⟩
    [⟨10, 10, 5, ['#', 'f', 'f', '0', '0', '0', '0']⟩] (by simp)).1

/-- Claim C8: the template-shape generator is deterministic, produces
`segments + 2` vertices, vertex 0 is the center `(0,0)`, ring vertex `i`
lies at `(cos θ, sin θ)` for `θ = (i/segments)·2π`, and the last
generated ring vertex equals the first ring vertex, closing the fan. -/
theorem claim_C8 (segments : ℕ) (hpos : 0 < segments) :
    (circleVertices segments = circleVertices segments) ∧
    ((circleVertices segments).length = segments + 2) ∧
    ((circleVertices segments).get? 0 = some (0, 0)) ∧
    (∀ i, i ≤ segments → (circleVertices segments).get? (i + 1) =
      some (Real.cos (((i : ℝ) / (segments : ℝ)) * Real.pi * 2),
            Real.sin (((i : ℝ) / (segments : ℝ)) * Real.pi * 2))) ∧
    ((circleVertices segments).get? (segments + 1) = (circleVertices segments).get? 1) := by
  have hcast : ((segments : ℝ)) ≠ 0 := Nat.cast_ne_zero.mpr (Nat.pos_iff_ne_zero.mp hpos)
  refine ⟨rfl, ?_, rfl, ?_, ?_⟩
  · simp only [circleVertices, List.length_cons, List.length_map, List.length_range]
  · intro i hi
    simp only [circleVertices, List.get?_cons_succ, List.get?_map,
      List.get?_range (Nat.lt_succ_of_le hi), Option.map_some']
  · have e0 : (circleVertices segments).get? 1 = some (1, 0) := by
      simp only [circleVertices, List.get?_cons_succ, List.get?_map,
        List.get?_range (Nat.succ_pos segments), Option.map_some']
      norm_num
    have eS : (circleVertices segments).get? (segments + 1) = some (1, 0) := by
      simp only [circleVertices, List.get?_cons_succ, List.get?_map,
        List.get?_range (Nat.lt_succ_self segments), Option.map_some']
      rw [div_self hcast, one_mul]
      rw [show (Real.pi * 2) = 2 * Real.pi from by ring]
      rw [Real.cos_two_pi, Real.sin_two_pi]
    rw [e0, eS]

/-- Witness for C8 at the source's segment count 12. -/
theorem claim_C8_witness :
    (0 < 12) ∧ ((circleVertices 12).length = 12 + 2) :=
  ⟨by norm_num, (claim_C8 12 (by norm_num)).2.1⟩
